import Mathlib

/-
Verification of the prototool exec runner and cmd layers.

The development shallowly embeds `internal/exec/runner.go` and
`internal/cmd/templates.go` (plus the flag defaults of the cmd package).
External collaborators (the file.ProtoSetProvider, the protoc compiler,
the breaking runner, git, the OS) are modelled as explicit environment
records whose fields hold the outcome of each collaborator call; the
control flow of the runner functions themselves is translated directly
from the Go source.  Go stdlib string/path helpers are implemented with
structural recursion over character lists so that concrete instances
evaluate inside the kernel.
-/

namespace Prototool

/-! ### Go stdlib string and path helpers (modelled) -/

/-- Splits a character list on a separator character; mirrors Go
`strings.Split` for a one-character separator (always returns at least
one, possibly empty, component). -/
def splitOnChar (sep : Char) : List Char → List (List Char)
  | [] => [[]]
  | c :: rest =>
    let r := splitOnChar sep rest
    if c = sep then [] :: r
    else
      match r with
      | [] => [[c]]
      | h :: t => (c :: h) :: t

/-- String version of `splitOnChar`. -/
def strSplitOnChar (sep : Char) (s : String) : List String :=
  (splitOnChar sep s.data).map (fun l => String.mk l)

/-- Joins strings with a separator character between them; mirrors Go
`strings.Join` for a one-character separator. -/
def joinWithChar (sep : Char) : List String → String
  | [] => ""
  | [s] => s
  | s :: rest => s ++ String.mk [sep] ++ joinWithChar sep rest

/-- Mirrors Go `strings.HasPrefix` (structural, kernel-friendly). -/
def strHasPre (s p : String) : Bool :=
  p.data.isPrefixOf s.data

/-- Mirrors Go `path/filepath.IsAbs` for slash-separated paths. -/
def goIsAbs (p : String) : Bool :=
  strHasPre p "/"

/-- Mirrors Go `path/filepath.Clean` for slash-separated paths:
eliminates empty and `.` components, resolves `..` against preceding
components (dropping `..` at the root), and returns `.` for an empty
result. -/
def goClean (path : String) : String :=
  if path = "" then "."
  else
    let rooted := goIsAbs path
    let comps := (strSplitOnChar '/' path).filter (fun c => !(c == "") && !(c == "."))
    let outRev := comps.foldl
      (fun acc c =>
        if c = ".." then
          match acc with
          | [] => if rooted then [] else [".."]
          | top :: rest => if top = ".." then c :: acc else rest
        else c :: acc)
      ([] : List String)
    let s := joinWithChar '/' outRev.reverse
    if rooted then "/" ++ s
    else if s = "" then "." else s

/-- Mirrors Go `path/filepath.Dir`: everything up to (and including)
the final slash, then cleaned; `.` when there is no slash. -/
def goDir (path : String) : String :=
  goClean (String.mk ((path.data.reverse.dropWhile (fun c => !(c == '/'))).reverse))

/-- Modelled from the spec: `file.AbsClean` (not present under src/)
returns the absolute cleaned form of a path — the path itself if
already absolute, otherwise joined onto the process working directory,
then cleaned. -/
def absClean (cwd path : String) : String :=
  if goIsAbs path then goClean path else goClean (cwd ++ "/" ++ path)

/-! ### Failures (internal/text, modelled from the spec) -/

/-- One compiler diagnostic: filename, line, column, an optional
identifier, and a message (`text.Failure`; line and column are
non-negative in every diagnostic the tool constructs, so they are
modelled as `Nat`). -/
structure Failure where
  filename : String
  line : Nat
  column : Nat
  id : String
  message : String
deriving DecidableEq, Repr

/-- Strict lexicographic comparison of character lists (the order Go
`sort.Strings` uses, restricted to the code-point comparison both
agree on).  Structural, so it evaluates inside the kernel. -/
def strListLt : List Char → List Char → Bool
  | [], [] => false
  | [], _ :: _ => true
  | _ :: _, [] => false
  | a :: as, b :: bs =>
    if a < b then true else if b < a then false else strListLt as bs

/-- Strict lexicographic comparison of strings. -/
def strLtB (s t : String) : Bool :=
  strListLt s.data t.data

/-- Lexicographic less-or-equal on strings. -/
def strLeB (s t : String) : Bool :=
  !(strLtB t s)

/-- Strict comparison of naturals as a boolean. -/
def natLtB (a b : Nat) : Bool :=
  decide (a < b)

/-- One lexicographic step: compare through the projection `f` with the
strict order `glt`; on a tie, fall through to `rest`. -/
def lexVia {β γ : Type} (glt : γ → γ → Bool) (f : β → γ) (rest : β → β → Bool) (a b : β) : Bool :=
  if glt (f a) (f b) then true else if glt (f b) (f a) then false else rest a b

/-- The (filename, line, column, message) sort key of a failure.  The
identifier field is not part of the key. -/
def Failure.sortKey (f : Failure) : String × Nat × Nat × String :=
  (f.filename, f.line, f.column, f.message)

/-- The failure sort order as a boolean comparator: lexicographic on
(filename, line, column, message). -/
def failureLeB : Failure → Failure → Bool :=
  lexVia strLtB Failure.filename
    (lexVia natLtB Failure.line
      (lexVia natLtB Failure.column
        (fun a b => strLeB a.message b.message)))

/-- The failure sort order as a relation. -/
def failureLe (a b : Failure) : Prop :=
  failureLeB a b = true

instance : DecidableRel failureLe := fun a b =>
  inferInstanceAs (Decidable (failureLeB a b = true))

theorem strListLt_asymm : ∀ (x y : List Char), strListLt x y = true → strListLt y x = false
  | [], [] => by simp [strListLt]
  | [], _ :: _ => by simp [strListLt]
  | _ :: _, [] => by simp [strListLt]
  | a :: as, b :: bs => by
    intro h
    by_cases h1 : a < b
    · simp [strListLt, if_neg (lt_asymm h1), if_pos h1]
    · by_cases h2 : b < a
      · simp [strListLt, if_neg h1, if_pos h2] at h
      · have htail := strListLt_asymm as bs
          (by simpa [strListLt, if_neg h1, if_neg h2] using h)
        simp [strListLt, if_neg h1, if_neg h2, htail]

theorem strListLt_conn : ∀ (x y : List Char), strListLt x y = false → strListLt y x = false → x = y
  | [], [] => fun _ _ => rfl
  | [], _ :: _ => by simp [strListLt]
  | _ :: _, [] => by simp [strListLt]
  | a :: as, b :: bs => by
    intro hxy hyx
    by_cases h1 : a < b
    · simp [strListLt, if_pos h1] at hxy
    · by_cases h2 : b < a
      · simp [strListLt, if_pos h2] at hyx
      · have hab : a = b := le_antisymm (le_of_not_lt h2) (le_of_not_lt h1)
        have htail := strListLt_conn as bs
          (by simpa [strListLt, if_neg h1, if_neg h2] using hxy)
          (by simpa [strListLt, if_neg h1, if_neg h2] using hyx)
        rw [hab, htail]

theorem strListLt_trans :
    ∀ (x y z : List Char), strListLt x y = true → strListLt y z = true → strListLt x z = true
  | [], [], _ => by simp [strListLt]
  | [], _ :: _, [] => by simp [strListLt]
  | [], _ :: _, _ :: _ => by simp [strListLt]
  | _ :: _, [], _ => by simp [strListLt]
  | _ :: _, _ :: _, [] => by simp [strListLt]
  | a :: as, b :: bs, c :: cs => by
    intro hxy hyz
    by_cases h1 : a < b
    · by_cases h3 : b < c
      · simp [strListLt, if_pos (lt_trans h1 h3)]
      · by_cases h4 : c < b
        · simp [strListLt, if_neg h3, if_pos h4] at hyz
        · have hbc : b = c := le_antisymm (le_of_not_lt h4) (le_of_not_lt h3)
          subst hbc
          simp [strListLt, if_pos h1]
    · by_cases h2 : b < a
      · simp [strListLt, if_neg h1, if_pos h2] at hxy
      · have hab : a = b := le_antisymm (le_of_not_lt h2) (le_of_not_lt h1)
        subst hab
        by_cases h3 : a < c
        · simp [strListLt, if_pos h3]
        · by_cases h4 : c < a
          · simp [strListLt, if_neg h3, if_pos h4] at hyz
          · have htail := strListLt_trans as bs cs
              (by simpa [strListLt, lt_irrefl] using hxy)
              (by simpa [strListLt, if_neg h3, if_neg h4] using hyz)
            simp [strListLt, if_neg h3, if_neg h4, htail]

theorem strLtB_asymm (s t : String) : strLtB s t = true → strLtB t s = false :=
  strListLt_asymm s.data t.data

theorem strLtB_conn (s t : String) : strLtB s t = false → strLtB t s = false → s = t := by
  intro h1 h2
  cases s
  cases t
  exact congrArg String.mk (strListLt_conn _ _ h1 h2)

theorem strLtB_trans (s t u : String) :
    strLtB s t = true → strLtB t u = true → strLtB s u = true :=
  strListLt_trans s.data t.data u.data

theorem natLtB_asymm (a b : Nat) : natLtB a b = true → natLtB b a = false := by
  simp [natLtB]; omega

theorem natLtB_conn (a b : Nat) : natLtB a b = false → natLtB b a = false → a = b := by
  simp [natLtB]; omega

theorem natLtB_trans (a b c : Nat) :
    natLtB a b = true → natLtB b c = true → natLtB a c = true := by
  simp [natLtB]; omega

theorem strLeB_total (s t : String) : strLeB s t = true ∨ strLeB t s = true := by
  cases h : strLtB t s with
  | false => left; simp [strLeB, h]
  | true => right; simp [strLeB, strLtB_asymm _ _ h]

theorem strLeB_trans (s t u : String) :
    strLeB s t = true → strLeB t u = true → strLeB s u = true := by
  simp only [strLeB, Bool.not_eq_true']
  intro h1 h2
  cases h3 : strLtB u s with
  | false => rfl
  | true =>
    cases h4 : strLtB t u with
    | false =>
      have htu : t = u := strLtB_conn t u h4 h2
      rw [htu] at h1
      rw [h1] at h3
      cases h3
    | true =>
      have hts : strLtB t s = true := strLtB_trans t u s h4 h3
      rw [h1] at hts
      cases hts

theorem strLeB_antisymm (s t : String) :
    strLeB s t = true → strLeB t s = true → s = t := by
  simp only [strLeB, Bool.not_eq_true']
  intro h1 h2
  exact strLtB_conn s t h2 h1

/-- Lexicographic less-or-equal on strings as a relation (the order of
Go `sort.Strings`). -/
def strLe (s t : String) : Prop :=
  strLeB s t = true

instance : DecidableRel strLe := fun s t =>
  inferInstanceAs (Decidable (strLeB s t = true))

instance : IsTotal String strLe :=
  ⟨fun s t => strLeB_total s t⟩

instance : IsTrans String strLe :=
  ⟨fun s t u => strLeB_trans s t u⟩

instance {ε α : Type} [DecidableEq ε] [DecidableEq α] : DecidableEq (Except ε α) :=
  fun a b =>
    match a, b with
    | .ok x, .ok y =>
      if h : x = y then .isTrue (by rw [h]) else .isFalse (by intro hh; cases hh; exact h rfl)
    | .error e, .error e' =>
      if h : e = e' then .isTrue (by rw [h]) else .isFalse (by intro hh; cases hh; exact h rfl)
    | .ok _, .error _ => .isFalse (by intro hh; cases hh)
    | .error _, .ok _ => .isFalse (by intro hh; cases hh)

theorem lexVia_total {β γ : Type} (glt : γ → γ → Bool) (f : β → γ) (rest : β → β → Bool)
    (hrest : ∀ a b, rest a b = true ∨ rest b a = true) (a b : β) :
    lexVia glt f rest a b = true ∨ lexVia glt f rest b a = true := by
  unfold lexVia
  by_cases h1 : glt (f a) (f b) = true
  · left; simp [h1]
  · by_cases h2 : glt (f b) (f a) = true
    · right; simp [h2]
    · rcases hrest a b with h | h
      · left; simp [h1, h2, h]
      · right; simp [h1, h2, h]

theorem lexVia_irrefl_aux {γ : Type} (glt : γ → γ → Bool)
    (hasymm : ∀ u v, glt u v = true → glt v u = false) (u : γ) : glt u u = false := by
  cases h : glt u u with
  | false => rfl
  | true => exact absurd (hasymm u u h) (by simp [h])

theorem lexVia_trans {β γ : Type} (glt : γ → γ → Bool) (f : β → γ) (rest : β → β → Bool)
    (hasymm : ∀ u v, glt u v = true → glt v u = false)
    (hconn : ∀ u v, glt u v = false → glt v u = false → u = v)
    (htrans : ∀ u v w, glt u v = true → glt v w = true → glt u w = true)
    (hrtrans : ∀ a b c, rest a b = true → rest b c = true → rest a c = true)
    (a b c : β) :
    lexVia glt f rest a b = true → lexVia glt f rest b c = true →
      lexVia glt f rest a c = true := by
  unfold lexVia
  intro hab hbc
  by_cases h1 : glt (f a) (f b) = true
  · by_cases h3 : glt (f b) (f c) = true
    · simp [htrans _ _ _ h1 h3]
    · by_cases h4 : glt (f c) (f b) = true
      · simp [h3, h4] at hbc
      · have hbcEq : f b = f c := hconn _ _ (by simpa using h3) (by simpa using h4)
        have hac : glt (f a) (f c) = true := by rw [← hbcEq]; exact h1
        simp [hac]
  · by_cases h2 : glt (f b) (f a) = true
    · simp [h1, h2] at hab
    · have habEq : f a = f b := hconn _ _ (by simpa using h1) (by simpa using h2)
      by_cases h3 : glt (f b) (f c) = true
      · have hac : glt (f a) (f c) = true := by rw [habEq]; exact h3
        simp [hac]
      · by_cases h4 : glt (f c) (f b) = true
        · simp [h3, h4] at hbc
        · have hbcEq : f b = f c := hconn _ _ (by simpa using h3) (by simpa using h4)
          have hacEq : f a = f c := habEq.trans hbcEq
          have hga : glt (f a) (f c) = false := by
            rw [← hacEq]; exact lexVia_irrefl_aux glt hasymm (f a)
          have hgc : glt (f c) (f a) = false := by
            rw [← hacEq]; exact lexVia_irrefl_aux glt hasymm (f a)
          have hr : rest a c = true :=
            hrtrans _ _ _ (by simpa [h1, h2] using hab) (by simpa [h3, h4] using hbc)
          simp [hga, hgc, hr]

theorem lexVia_antisymm_parts {β γ : Type} (glt : γ → γ → Bool) (f : β → γ)
    (rest : β → β → Bool)
    (hasymm : ∀ u v, glt u v = true → glt v u = false)
    (hconn : ∀ u v, glt u v = false → glt v u = false → u = v)
    (a b : β) :
    lexVia glt f rest a b = true → lexVia glt f rest b a = true →
      f a = f b ∧ rest a b = true ∧ rest b a = true := by
  unfold lexVia
  intro hab hba
  by_cases h1 : glt (f a) (f b) = true
  · simp [hasymm _ _ h1, h1] at hba
  · by_cases h2 : glt (f b) (f a) = true
    · simp [h1, h2] at hab
    · refine ⟨hconn _ _ (Bool.not_eq_true _ ▸ h1) (Bool.not_eq_true _ ▸ h2), ?_, ?_⟩
      · simpa [h1, h2] using hab
      · simpa [h1, h2] using hba

theorem failureLeB_total (a b : Failure) : failureLeB a b = true ∨ failureLeB b a = true := by
  unfold failureLeB
  exact lexVia_total _ _ _
    (fun x y => lexVia_total _ _ _
      (fun x y => lexVia_total _ _ _
        (fun x y => strLeB_total x.message y.message) x y) x y) a b

theorem failureLeB_trans (a b c : Failure) :
    failureLeB a b = true → failureLeB b c = true → failureLeB a c = true := by
  unfold failureLeB
  exact lexVia_trans _ _ _ strLtB_asymm strLtB_conn strLtB_trans
    (fun x y z => lexVia_trans _ _ _ natLtB_asymm natLtB_conn natLtB_trans
      (fun x y z => lexVia_trans _ _ _ natLtB_asymm natLtB_conn natLtB_trans
        (fun x y z => strLeB_trans x.message y.message z.message) x y z) x y z) a b c

instance : IsTotal Failure failureLe :=
  ⟨fun a b => failureLeB_total a b⟩

instance : IsTrans Failure failureLe :=
  ⟨fun a b c => failureLeB_trans a b c⟩

theorem failureLe_antisymm_key (a b : Failure) :
    failureLe a b → failureLe b a → a.sortKey = b.sortKey := by
  intro hab hba
  unfold failureLe failureLeB at hab hba
  obtain ⟨h1, hab, hba⟩ :=
    lexVia_antisymm_parts _ _ _ strLtB_asymm strLtB_conn a b hab hba
  obtain ⟨h2, hab, hba⟩ :=
    lexVia_antisymm_parts _ _ _ natLtB_asymm natLtB_conn a b hab hba
  obtain ⟨h3, hab, hba⟩ :=
    lexVia_antisymm_parts _ _ _ natLtB_asymm natLtB_conn a b hab hba
  have h4 : a.message = b.message := strLeB_antisymm _ _ hab hba
  simp [Failure.sortKey, h1, h2, h3, h4]

/-- Modelled from the spec: `text.SortFailures` (not present under
src/) stably sorts a failure list by (filename, line, column, message);
insertion sort is stable. -/
def sortFailures (l : List Failure) : List Failure :=
  List.insertionSort failureLe l

/-- The printable fields of a failure, as accepted by the
`--error-format` flag ("filename:line:column:id:message"). -/
inductive FailureField where
  | filename
  | line
  | column
  | id
  | message
deriving DecidableEq, Repr

/-- Parses one field name of an error format. -/
def parseFailureField (s : String) : Option FailureField :=
  if s = "filename" then some .filename
  else if s = "line" then some .line
  else if s = "column" then some .column
  else if s = "id" then some .id
  else if s = "message" then some .message
  else none

/-- Errors returned by the modelled runner operations. -/
inductive GoError where
  | notFound (path : String)
  | invalidTarget (path : String)
  | exitError (code : Nat) (message : String)
  | message (text : String)
deriving DecidableEq, Repr

/-- Modelled from the spec: `text.ParseColonSeparatedFailureFields`
(not present under src/) splits the error format on `:` and resolves
each component to a failure field, failing on an unknown component. -/
def parseColonSeparatedFailureFields (errorFormat : String) : Except GoError (List FailureField) :=
  (strSplitOnChar ':' errorFormat).foldr
    (fun comp acc =>
      match parseFailureField comp, acc with
      | some f, .ok fs => .ok (f :: fs)
      | none, _ => .error (.message ("unknown field: " ++ comp))
      | _, .error e => .error e)
    (.ok [])

/-- The string value of one field of a failure. -/
def Failure.fieldValue (f : Failure) : FailureField → String
  | .filename => f.filename
  | .line => toString f.line
  | .column => toString f.column
  | .id => f.id
  | .message => f.message

/-- Renders a failure as the colon-separated values of the requested
fields (`Failure.Fprintln`, modelled from the spec). -/
def renderFailureText (fields : List FailureField) (f : Failure) : String :=
  joinWithChar ':' (fields.map f.fieldValue)

/-- Escapes backslash and double quote for the JSON projection. -/
def jsonEscape (s : String) : String :=
  String.mk (s.data.foldr
    (fun c acc =>
      if c = '"' then '\\' :: '"' :: acc
      else if c = '\\' then '\\' :: '\\' :: acc
      else c :: acc)
    [])

/-- Modelled from the observed JSON output of the cmd tests:
`json.Marshal` of a failure emits filename, line, column, an
identifier only when non-empty, and message. -/
def renderFailureJSON (f : Failure) : String :=
  "\x7b\"filename\":\"" ++ jsonEscape f.filename ++ "\",\"line\":" ++ toString f.line
    ++ ",\"column\":" ++ toString f.column
    ++ (if f.id = "" then "" else ",\"id\":\"" ++ jsonEscape f.id ++ "\"")
    ++ ",\"message\":\"" ++ jsonEscape f.message ++ "\"\x7d"

/-! ### The exec runner data model -/

/-- Opaque stand-in for a `file.ProtoSet` produced by the
ProtoSetProvider collaborator; none of the verified operations inspect
its contents. -/
structure ProtoSet where
  psId : Nat
deriving DecidableEq, Repr

/-- Opaque stand-in for a `settings.Config`. -/
structure Config where
  cfgId : Nat
deriving DecidableEq, Repr

/-- Opaque stand-in for merged `protoc.FileDescriptorSets`. -/
structure FileDescriptorSets where
  fdsId : Nat
deriving DecidableEq, Repr

/-- Opaque stand-in for an `extract.PackageSet`. -/
structure PackageSet where
  pkgSetId : Nat
deriving DecidableEq, Repr

/-- The `meta` struct of runner.go: the resolved proto set plus, when
the target was a regular file, the single filename whose diagnostics
should be surfaced. -/
structure Meta where
  protoSet : ProtoSet
  singleFilename : String := ""
deriving DecidableEq, Repr

/-- The runner configuration (the fields of the `runner` struct that
the verified operations read; `cwd` is the process working directory
consulted by the modelled `file.AbsClean`). -/
structure Runner where
  workDirPath : String
  cwd : String
  cachePath : String := ""
  configData : String := ""
  protocBinPath : String := ""
  protocWKTPath : String := ""
  protocURL : String := ""
  errorFormat : String := ""
  json : Bool := false
  develMode : Bool := false
  walkTimeout : Nat := 0
deriving DecidableEq, Repr

/-- What `os.Stat` can report about a path: a directory, a regular
file, or something else (socket, device, symlink target, ...). -/
inductive FileKind where
  | dir
  | regular
  | other
deriving DecidableEq, Repr

/-- The filesystem as seen through `os.Stat`: `none` means the path
does not exist. -/
structure Filesystem where
  stat : String → Option FileKind

/-- Environment for target resolution: the outcome of
`protoSetProvider.GetForDir workDirPath dirPath`. -/
structure ResolveEnv where
  getForDir : String → String → Except GoError ProtoSet

/-- `runner.getMeta` (runner.go): stats the target (default `.`), then
resolves a directory target as-is, a regular-file target through its
containing directory (recording it as the single filename), and
rejects anything else. -/
def getMeta (fs : Filesystem) (env : ResolveEnv) (r : Runner) (args : List String) :
    Except GoError Meta :=
  let fileOrDir := match args with
    | [a] => a
    | _ => "."
  match fs.stat fileOrDir with
  | none => .error (.notFound fileOrDir)
  | some .dir =>
    match env.getForDir r.workDirPath fileOrDir with
    | .error e => .error e
    | .ok protoSet => .ok { protoSet := protoSet }
  | some .regular =>
    match env.getForDir r.workDirPath (goDir fileOrDir) with
    | .error e => .error e
    | .ok protoSet => .ok { protoSet := protoSet, singleFilename := fileOrDir }
  | some .other => .error (.invalidTarget fileOrDir)

/-- The filter applied by `printFailuresForErrorFormat` to one failure:
with no meta everything prints; with a meta, everything prints in
directory mode (empty single filename), and in single-file mode only
diagnostics whose filename matches the single filename literally or
after absolute-cleaning both sides. -/
def shouldPrint (cwd : String) (m : Option Meta) (f : Failure) : Bool :=
  match m with
  | none => true
  | some meta =>
    if meta.singleFilename = "" then true
    else if meta.singleFilename = f.filename then true
    else absClean cwd meta.singleFilename == absClean cwd f.filename

/-- `runner.printFailuresForErrorFormat` (runner.go): overrides the
failures' filename when one is given, parses the error format, sorts,
filters by the meta's single filename, and renders each surviving
failure (JSON object per line in JSON mode, colon-separated fields
otherwise).  Returns the printed lines. -/
def printFailuresForErrorFormat (r : Runner) (errorFormat : String) (filename : String)
    (m : Option Meta) (failures : List Failure) : Except GoError (List String) :=
  let failures := if filename ≠ "" then
      failures.map (fun f => { f with filename := filename })
    else failures
  match parseColonSeparatedFailureFields errorFormat with
  | .error e => .error e
  | .ok fields =>
    .ok (((sortFailures failures).filter (shouldPrint r.cwd m)).map
      (fun f => if r.json then renderFailureJSON f else renderFailureText fields f))

/-- `runner.printFailures` (runner.go): printing with the runner's
configured error format. -/
def printFailures (r : Runner) (filename : String) (m : Option Meta)
    (failures : List Failure) : Except GoError (List String) :=
  printFailuresForErrorFormat r r.errorFormat filename m failures

/-- The outcome of `compiler.Compile`: collected diagnostics plus the
per-group descriptor sets. -/
structure CompileResult where
  failures : List Failure
  fileDescriptorSets : FileDescriptorSets
deriving DecidableEq, Repr

/-- `runner.doCompile` (runner.go): given the compiler outcome, prints
all collected failures (through the single-file filter), then reports
exit code 255 when any failure was collected, otherwise returns the
descriptor sets.  The first component is the printed output. -/
def doCompile (r : Runner) (m : Meta) (compileResult : Except GoError CompileResult) :
    List String × Except GoError FileDescriptorSets :=
  match compileResult with
  | .error e => ([], .error e)
  | .ok cr =>
    match printFailures r "" (some m) cr.failures with
    | .error e => ([], .error e)
    | .ok lines =>
      if cr.failures.length > 0 then (lines, .error (.exitError 255 ""))
      else (lines, .ok cr.fileDescriptorSets)

/-! ### DescriptorSet and BreakDescriptorSet -/

/-- The externally visible stages of the descriptor-set operation, in
the order they are performed. -/
inductive DescStep where
  | resolveTarget
  | compileStep
  | mergeStep
  | marshalStep
  | writeStep
deriving DecidableEq, Repr

/-- Environment for the descriptor-set operation: the outcome of each
collaborator call after argument validation. -/
structure DescSetEnv where
  meta : Except GoError Meta
  fds : Except GoError FileDescriptorSets
  merged : Except GoError Nat
  marshalled : Except GoError (List Nat)
  written : Except GoError Unit

/-- `runner.DescriptorSet` (runner.go): rejects `output-path` together
with `tmp` up front with exit code 255, then resolves the target,
compiles with full descriptor control, merges, marshals and writes.
The second component traces which stages were reached. -/
def descriptorSetOp (env : DescSetEnv) (outputPath : String) (tmp : Bool) :
    Except GoError Unit × List DescStep :=
  if outputPath ≠ "" ∧ tmp then
    (.error (.exitError 255 "can only set one of output-path, tmp"), [])
  else
    match env.meta with
    | .error e => (.error e, [.resolveTarget])
    | .ok _ =>
      match env.fds with
      | .error e => (.error e, [.resolveTarget, .compileStep])
      | .ok _ =>
        match env.merged with
        | .error e => (.error e, [.resolveTarget, .compileStep, .mergeStep])
        | .ok _ =>
          match env.marshalled with
          | .error e => (.error e, [.resolveTarget, .compileStep, .mergeStep, .marshalStep])
          | .ok _ =>
            match env.written with
            | .error e =>
              (.error e, [.resolveTarget, .compileStep, .mergeStep, .marshalStep, .writeStep])
            | .ok _ =>
              (.ok (), [.resolveTarget, .compileStep, .mergeStep, .marshalStep, .writeStep])

/-- `runner.BreakDescriptorSet` (runner.go): requires an output path
(exit code 255 otherwise), then delegates to the descriptor-set
operation with imports included. -/
def breakDescriptorSet (env : DescSetEnv) (outputPath : String) :
    Except GoError Unit × List DescStep :=
  if outputPath = "" then (.error (.exitError 255 "must set output-path"), [])
  else descriptorSetOp env outputPath false

/-! ### BreakCheck -/

/-- Environment for the breaking-change check: the outcome of each
collaborator call. -/
structure BreakEnv where
  toPkg : Except GoError (PackageSet × Config)
  fromPkgDesc : String → Except GoError PackageSet
  clone : Except GoError String
  fromPkgClone : String → Except GoError (PackageSet × Config)
  breakingRun : Config → PackageSet → PackageSet → Except GoError (List Failure)

/-- Trace of the git-clone side effects of the breaking-change check. -/
structure BreakTrace where
  cloneAttempted : Bool := false
  cloneCreated : Bool := false
  cloneRemoved : Bool := false
deriving DecidableEq, Repr

/-- The deferred `os.RemoveAll(cloneDirPath)`: whatever the remaining
computation produced, the clone directory is removed on exit. -/
def deferRemove (res : Except GoError Unit × List String) (tr : BreakTrace) :
    Except GoError Unit × List String × BreakTrace :=
  (res.1, res.2, { tr with cloneRemoved := true })

/-- The tail of `runner.BreakCheck` (runner.go): run the breaking
runner; on findings, print them with the fixed "message" error format
and no meta, then exit 255; on no findings, succeed silently. -/
def breakCheckFinish (env : BreakEnv) (r : Runner) (config : Config)
    (fromPackageSet toPackageSet : PackageSet) : Except GoError Unit × List String :=
  match env.breakingRun config fromPackageSet toPackageSet with
  | .error e => (.error e, [])
  | .ok failures =>
    if failures.length > 0 then
      match printFailuresForErrorFormat r "message" "" none failures with
      | .error e => (.error e, [])
      | .ok lines => (.error (.exitError 255 ""), lines)
    else (.ok (), [])

/-- The relative target directory of the breaking-change check:
the single argument when given, else `.`. -/
def breakCheckRelDir (args : List String) : String :=
  match args with
  | [a] => a
  | _ => "."

/-- `runner.BreakCheck` (runner.go): rejects setting both git-branch
and descriptor-set-path; resolves and compiles the current state; in
descriptor-set mode reads the stored set; in git mode validates that
the target is a relative path inside the working tree, clones at the
git reference (removing the clone on every exit path thereafter), and
recompiles the clone; finally diffs the two package sets. -/
def breakCheck (env : BreakEnv) (r : Runner) (args : List String)
    (gitBranch descriptorSetPath : String) :
    Except GoError Unit × List String × BreakTrace :=
  if gitBranch ≠ "" ∧ descriptorSetPath ≠ "" then
    (.error (.exitError 255 "can only set one of git-branch, descriptor-set-path"), [], {})
  else
    match env.toPkg with
    | .error e => (.error e, [], {})
    | .ok (toPackageSet, config) =>
      if descriptorSetPath ≠ "" then
        match env.fromPkgDesc descriptorSetPath with
        | .error e => (.error e, [], {})
        | .ok fromPackageSet =>
          match breakCheckFinish env r config fromPackageSet toPackageSet with
          | (res, lines) => (res, lines, {})
      else
        if goIsAbs (breakCheckRelDir args) then
          (.error (.message ("input argument must be relative directory path: " ++
            breakCheckRelDir args)), [], {})
        else
          if ¬ strHasPre (absClean r.cwd (breakCheckRelDir args))
              (absClean r.cwd r.workDirPath) then
            (.error (.message ("input directory must be within working directory: " ++
              breakCheckRelDir args)), [], {})
          else
            match env.clone with
            | .error e => (.error e, [], { cloneAttempted := true })
            | .ok cloneDirPath =>
              let tr : BreakTrace := { cloneAttempted := true, cloneCreated := true }
              match env.fromPkgClone cloneDirPath with
              | .error e => deferRemove (.error e, []) tr
              | .ok (fromPackageSet, _) =>
                deferRemove (breakCheckFinish env r config fromPackageSet toPackageSet) tr

/-! ### Package-name listing (inspect) -/

/-- Opaque stand-in for an `extract.Package` value inside a name-keyed
map; the listing operations only use the keys. -/
structure PackageInfo where
  dependencyNameToDependency : List (String × Nat)
  importerNameToImporter : List (String × Nat)
deriving DecidableEq, Repr

/-- A package set as the `PackageNameToPackage` map (association
list keyed by package name). -/
def PackageSetMap : Type :=
  List (String × PackageInfo)

/-- `extractSortPackageNames` (runner.go): the non-empty keys of the
map, sorted with `sort.Strings`. -/
def extractSortPackageNames {α : Type} (m : List (String × α)) : List String :=
  List.insertionSort strLe ((m.map Prod.fst).filter (fun s => !(s == "")))

/-- `runner.println` applied to a list: empty strings print nothing. -/
def printlnLines (ss : List String) : List String :=
  ss.filter (fun s => !(s == ""))

/-- `runner.printPackageNames` (runner.go). -/
def printPackageNames {α : Type} (m : List (String × α)) : List String :=
  printlnLines (extractSortPackageNames m)

/-- `runner.InspectPackages` (runner.go): a nil package set prints
nothing; otherwise the sorted package names are printed. -/
def inspectPackages (psr : Except GoError (Option PackageSetMap × Config)) :
    Except GoError (List String) :=
  match psr with
  | .error e => .error e
  | .ok (none, _) => .ok []
  | .ok (some ps, _) => .ok (printPackageNames ps)

/-- `runner.getPackage` (runner.go): requires a name (exit code 255),
then looks the package up in the package set. -/
def getPackage (psr : Except GoError (Option PackageSetMap × Config)) (name : String) :
    Except GoError PackageInfo :=
  if name = "" then .error (.exitError 255 "must set name")
  else
    match psr with
    | .error e => .error e
    | .ok (none, _) => .error (.message ("package not found: " ++ name))
    | .ok (some ps, _) =>
      match List.lookup name ps with
      | none => .error (.message ("package not found: " ++ name))
      | some pkg => .ok pkg

/-- `runner.InspectPackageDeps` (runner.go). -/
def inspectPackageDeps (psr : Except GoError (Option PackageSetMap × Config))
    (name : String) : Except GoError (List String) :=
  match getPackage psr name with
  | .error e => .error e
  | .ok pkg => .ok (printPackageNames pkg.dependencyNameToDependency)

/-- `runner.InspectPackageImporters` (runner.go). -/
def inspectPackageImporters (psr : Except GoError (Option PackageSetMap × Config))
    (name : String) : Except GoError (List String) :=
  match getPackage psr name with
  | .error e => .error e
  | .ok pkg => .ok (printPackageNames pkg.importerNameToImporter)

/-! ### The cmd layer: flags and getRunner -/

/-- The cmd-layer flag values (flags.go), with the documented flag
defaults. -/
structure Flags where
  cachePath : String := ""
  configData : String := ""
  debug : Bool := false
  disableFormat : Bool := false
  disableLint : Bool := false
  document : Bool := false
  dryRun : Bool := false
  errorFormat : String := "filename:line:column:message"
  fix : Bool := false
  json : Bool := false
  protocBinPath : String := ""
  protocWKTPath : String := ""
  protocURL : String := ""
  uncomment : Bool := false
  walkTimeout : String := "3s"
deriving DecidableEq, Repr

/-- The pieces of the OS environment read by `getRunner`: the three
PROTOTOOL_* environment variables (empty when unset), the process
working directory, and `time.ParseDuration` as a collaborator. -/
structure OsEnv where
  prototoolCachePath : String := ""
  prototoolProtocBinPath : String := ""
  prototoolProtocWktPath : String := ""
  getwd : Except GoError String
  parseDuration : String → Except GoError Nat

/-- Modelled from the spec: the `exec.RunnerWith*` option constructors
(declared outside src/); each option records one configuration value
to set on the runner. -/
inductive RunnerOption where
  | withLogger
  | withDevelMode
  | withCachePath (path : String)
  | withConfigData (data : String)
  | withJson
  | withErrorFormat (format : String)
  | withProtocBinPath (path : String)
  | withProtocWktPath (path : String)
  | withProtocUrl (url : String)
  | withWalkTimeout (d : Nat)
deriving DecidableEq, Repr

/-- Modelled from the spec: applying one `exec.RunnerWith*` option
sets the corresponding field of the runner. -/
def applyRunnerOption (r : Runner) : RunnerOption → Runner
  | .withLogger => r
  | .withDevelMode => { r with develMode := true }
  | .withCachePath path => { r with cachePath := path }
  | .withConfigData data => { r with configData := data }
  | .withJson => { r with json := true }
  | .withErrorFormat format => { r with errorFormat := format }
  | .withProtocBinPath path => { r with protocBinPath := path }
  | .withProtocWktPath path => { r with protocWKTPath := path }
  | .withProtocUrl url => { r with protocURL := url }
  | .withWalkTimeout d => { r with walkTimeout := d }

/-- `exec.NewRunner`: a runner over the working directory with every
option applied in order (`cwd` is the process working directory used
by the modelled `file.AbsClean`). -/
def newRunner (cwd workDirPath : String) (options : List RunnerOption) : Runner :=
  options.foldl applyRunnerOption { workDirPath := workDirPath, cwd := cwd }

/-- The cache-path options appended by `getRunner` (templates.go):
the flag when set, else the environment variable when set. -/
def cachePathOptions (flags : Flags) (env : OsEnv) : List RunnerOption :=
  if flags.cachePath ≠ "" then [.withCachePath flags.cachePath]
  else if env.prototoolCachePath ≠ "" then [.withCachePath env.prototoolCachePath]
  else []

/-- The config-data options appended by `getRunner` (templates.go). -/
def configDataOptions (flags : Flags) : List RunnerOption :=
  if flags.configData ≠ "" then [.withConfigData flags.configData] else []

/-- The JSON options appended by `getRunner` (templates.go). -/
def jsonOptions (flags : Flags) : List RunnerOption :=
  if flags.json then [.withJson] else []

/-- The protoc-bin-path options appended by `getRunner`
(templates.go): the flag when set, else the environment variable when
set. -/
def protocBinPathOptions (flags : Flags) (env : OsEnv) : List RunnerOption :=
  if flags.protocBinPath ≠ "" then [.withProtocBinPath flags.protocBinPath]
  else if env.prototoolProtocBinPath ≠ "" then
    [.withProtocBinPath env.prototoolProtocBinPath]
  else []

/-- The protoc-wkt-path options appended by `getRunner`
(templates.go): the flag when set, else the environment variable when
set. -/
def protocWktPathOptions (flags : Flags) (env : OsEnv) : List RunnerOption :=
  if flags.protocWKTPath ≠ "" then [.withProtocWktPath flags.protocWKTPath]
  else if env.prototoolProtocWktPath ≠ "" then
    [.withProtocWktPath env.prototoolProtocWktPath]
  else []

/-- The error-format options appended by `getRunner` (templates.go). -/
def errorFormatOptions (flags : Flags) : List RunnerOption :=
  if flags.errorFormat ≠ "" then [.withErrorFormat flags.errorFormat] else []

/-- The protoc-url options appended by `getRunner` (templates.go). -/
def protocUrlOptions (flags : Flags) : List RunnerOption :=
  if flags.protocURL ≠ "" then [.withProtocUrl flags.protocURL] else []

/-- The walk-timeout options appended by `getRunner` (templates.go):
a non-empty flag is parsed as a duration, and a parse error aborts. -/
def walkTimeoutOptions (flags : Flags) (env : OsEnv) : Except GoError (List RunnerOption) :=
  if flags.walkTimeout ≠ "" then
    match env.parseDuration flags.walkTimeout with
    | .error e => .error e
    | .ok d => .ok [.withWalkTimeout d]
  else .ok []

/-- The devel-mode options appended by `getRunner` (templates.go). -/
def develOptions (develMode : Bool) : List RunnerOption :=
  if develMode then [.withDevelMode] else []

/-- `getRunner` (templates.go): builds the runner option list in
source order (logger, cache path, config data, JSON, protoc bin path,
protoc WKT path, error format, protoc URL, walk timeout, devel mode)
and constructs the runner over the process working directory. -/
def getRunner (develMode : Bool) (flags : Flags) (env : OsEnv) : Except GoError Runner :=
  let opts := [RunnerOption.withLogger]
  let opts := opts ++ cachePathOptions flags env
  let opts := opts ++ configDataOptions flags
  let opts := opts ++ jsonOptions flags
  let opts := opts ++ protocBinPathOptions flags env
  let opts := opts ++ protocWktPathOptions flags env
  let opts := opts ++ errorFormatOptions flags
  let opts := opts ++ protocUrlOptions flags
  match walkTimeoutOptions flags env with
  | .error e => .error e
  | .ok wOpts =>
    let opts := (opts ++ wOpts) ++ develOptions develMode
    match env.getwd with
    | .error e => .error e
    | .ok workDirPath => .ok (newRunner workDirPath workDirPath opts)

/-! ### Claim theorems -/

/-- C7: resolution of a target path fails with `NotFoundError` when the
target does not exist, and with `InvalidTargetError` when the target
exists but is neither a regular file nor a directory; in both cases an
error (and hence no compilation unit) is returned. -/
theorem getMeta_notFound_invalidTarget (fs : Filesystem) (env : ResolveEnv) (r : Runner)
    (target : String) :
    (fs.stat target = none →
      getMeta fs env r [target] = .error (.notFound target)) ∧
    (fs.stat target = some .other →
      getMeta fs env r [target] = .error (.invalidTarget target)) := by
  constructor
  · intro h
    unfold getMeta
    simp [h]
  · intro h
    unfold getMeta
    simp [h]

theorem getMeta_notFound_invalidTarget_witness :
    getMeta ⟨fun p => if p == "weird" then some .other else none⟩
        ⟨fun _ _ => .ok ⟨0⟩⟩ { workDirPath := "/w", cwd := "/w" } ["missing"] =
      .error (.notFound "missing") ∧
    getMeta ⟨fun p => if p == "weird" then some .other else none⟩
        ⟨fun _ _ => .ok ⟨0⟩⟩ { workDirPath := "/w", cwd := "/w" } ["weird"] =
      .error (.invalidTarget "weird") :=
  ⟨(getMeta_notFound_invalidTarget ⟨fun p => if p == "weird" then some .other else none⟩
      ⟨fun _ _ => .ok ⟨0⟩⟩ { workDirPath := "/w", cwd := "/w" } "missing").1 rfl,
   (getMeta_notFound_invalidTarget ⟨fun p => if p == "weird" then some .other else none⟩
      ⟨fun _ _ => .ok ⟨0⟩⟩ { workDirPath := "/w", cwd := "/w" } "weird").2 rfl⟩

/-- C9: the descriptor-set operation called with both a non-empty
output path and the tmp option returns an exit-code-255 input error
with no stage (resolution, compilation, ...) performed, and the
break-descriptor-set operation returns an exit-code-255 error when no
output path is supplied. -/
theorem descriptorSet_arg_validation_before_work (env : DescSetEnv) (outputPath : String)
    (tmp : Bool) (hout : outputPath ≠ "") (htmp : tmp = true) :
    descriptorSetOp env outputPath tmp =
      (.error (.exitError 255 "can only set one of output-path, tmp"), []) ∧
    breakDescriptorSet env "" = (.error (.exitError 255 "must set output-path"), []) := by
  constructor
  · unfold descriptorSetOp
    simp [hout, htmp]
  · rfl

theorem printPackageNames_sorted_no_default {α : Type} (m : List (String × α)) :
    List.Sorted strLe (printPackageNames m) ∧ "" ∉ printPackageNames m := by
  constructor
  · exact (List.sorted_insertionSort strLe _).filter _
  · intro hmem
    unfold printPackageNames printlnLines at hmem
    rw [List.mem_filter] at hmem
    simp at hmem

/-- C5: every package-name listing operation (inspect packages,
package dependencies, package importers) outputs package names sorted
lexicographically, and the unnamed (empty-string) default package is
never included in the output. -/
theorem inspect_names_sorted_excludes_default
    (psr : Except GoError (Option PackageSetMap × Config)) (name : String)
    (out1 out2 out3 : List String) :
    (inspectPackages psr = .ok out1 → List.Sorted strLe out1 ∧ "" ∉ out1) ∧
    (inspectPackageDeps psr name = .ok out2 → List.Sorted strLe out2 ∧ "" ∉ out2) ∧
    (inspectPackageImporters psr name = .ok out3 → List.Sorted strLe out3 ∧ "" ∉ out3) := by
  refine ⟨?_, ?_, ?_⟩ <;> intro h
  · unfold inspectPackages at h
    cases psr with
    | error e => cases h
    | ok pc =>
      obtain ⟨ops, cfg⟩ := pc
      cases ops with
      | none =>
        cases h
        simp
      | some ps =>
        cases h
        exact printPackageNames_sorted_no_default ps
  · unfold inspectPackageDeps at h
    cases hgp : getPackage psr name with
    | error e => rw [hgp] at h; cases h
    | ok pkg =>
      rw [hgp] at h
      cases h
      exact printPackageNames_sorted_no_default pkg.dependencyNameToDependency
  · unfold inspectPackageImporters at h
    cases hgp : getPackage psr name with
    | error e => rw [hgp] at h; cases h
    | ok pkg =>
      rw [hgp] at h
      cases h
      exact printPackageNames_sorted_no_default pkg.importerNameToImporter

/-- A sample package set with an unnamed default package and unsorted
keys, for the C5 witness. -/
def inspectSample : Except GoError (Option PackageSetMap × Config) :=
  .ok (some [("b", ⟨[], []⟩), ("", ⟨[("x", 0)], []⟩), ("a", ⟨[("bar", 0), ("", 1)], [("baz", 2)]⟩)],
    ⟨0⟩)

theorem inspect_names_sorted_excludes_default_witness :
    (List.Sorted strLe ["a", "b"] ∧ "" ∉ ["a", "b"]) ∧
    (List.Sorted strLe ["bar"] ∧ "" ∉ ["bar"]) ∧
    (List.Sorted strLe ["baz"] ∧ "" ∉ ["baz"]) :=
  ⟨(inspect_names_sorted_excludes_default inspectSample "a" ["a", "b"] ["bar"] ["baz"]).1
      (by decide),
   (inspect_names_sorted_excludes_default inspectSample "a" ["a", "b"] ["bar"] ["baz"]).2.1
      (by decide),
   (inspect_names_sorted_excludes_default inspectSample "a" ["a", "b"] ["bar"] ["baz"]).2.2
      (by decide)⟩

theorem descriptorSet_arg_validation_before_work_witness :
    descriptorSetOp ⟨.ok { protoSet := ⟨0⟩ }, .ok ⟨0⟩, .ok 0, .ok [], .ok ()⟩ "out.bin" true =
      (.error (.exitError 255 "can only set one of output-path, tmp"), []) ∧
    breakDescriptorSet ⟨.ok { protoSet := ⟨0⟩ }, .ok ⟨0⟩, .ok 0, .ok [], .ok ()⟩ "" =
      (.error (.exitError 255 "must set output-path"), []) :=
  descriptorSet_arg_validation_before_work
    ⟨.ok { protoSet := ⟨0⟩ }, .ok ⟨0⟩, .ok 0, .ok [], .ok ()⟩ "out.bin" true
    (by decide) rfl

theorem foldl_proj_preserved (proj : Runner → String) (opts : List RunnerOption)
    (h : ∀ o ∈ opts, ∀ r' : Runner, proj (applyRunnerOption r' o) = proj r') :
    ∀ r : Runner, proj (opts.foldl applyRunnerOption r) = proj r := by
  induction opts with
  | nil => intro r; rfl
  | cons o os ih =>
    intro r
    rw [List.foldl_cons, ih (fun o' ho' => h o' (List.mem_cons_of_mem _ ho')),
      h o (List.mem_cons_self _ _)]

theorem mem_configDataOptions {flags : Flags} {o : RunnerOption}
    (h : o ∈ configDataOptions flags) : ∃ d, o = .withConfigData d := by
  unfold configDataOptions at h
  split_ifs at h <;> simp at h
  exact ⟨_, h⟩

theorem mem_jsonOptions {flags : Flags} {o : RunnerOption}
    (h : o ∈ jsonOptions flags) : o = .withJson := by
  unfold jsonOptions at h
  split_ifs at h <;> simp at h
  exact h

theorem mem_protocBinPathOptions {flags : Flags} {env : OsEnv} {o : RunnerOption}
    (h : o ∈ protocBinPathOptions flags env) : ∃ p, o = .withProtocBinPath p := by
  unfold protocBinPathOptions at h
  split_ifs at h <;> simp at h <;> exact ⟨_, h⟩

theorem mem_protocWktPathOptions {flags : Flags} {env : OsEnv} {o : RunnerOption}
    (h : o ∈ protocWktPathOptions flags env) : ∃ p, o = .withProtocWktPath p := by
  unfold protocWktPathOptions at h
  split_ifs at h <;> simp at h <;> exact ⟨_, h⟩

theorem mem_cachePathOptions {flags : Flags} {env : OsEnv} {o : RunnerOption}
    (h : o ∈ cachePathOptions flags env) : ∃ p, o = .withCachePath p := by
  unfold cachePathOptions at h
  split_ifs at h <;> simp at h <;> exact ⟨_, h⟩

theorem mem_errorFormatOptions {flags : Flags} {o : RunnerOption}
    (h : o ∈ errorFormatOptions flags) : ∃ f, o = .withErrorFormat f := by
  unfold errorFormatOptions at h
  split_ifs at h <;> simp at h
  exact ⟨_, h⟩

theorem mem_protocUrlOptions {flags : Flags} {o : RunnerOption}
    (h : o ∈ protocUrlOptions flags) : ∃ u, o = .withProtocUrl u := by
  unfold protocUrlOptions at h
  split_ifs at h <;> simp at h
  exact ⟨_, h⟩

theorem mem_develOptions {develMode : Bool} {o : RunnerOption}
    (h : o ∈ develOptions develMode) : o = .withDevelMode := by
  unfold develOptions at h
  split_ifs at h <;> simp at h
  exact h

theorem mem_walkTimeoutOptions {flags : Flags} {env : OsEnv} {w : List RunnerOption}
    {o : RunnerOption} (hw : walkTimeoutOptions flags env = .ok w) (h : o ∈ w) :
    ∃ d, o = .withWalkTimeout d := by
  unfold walkTimeoutOptions at hw
  split_ifs at hw
  · cases hp : env.parseDuration flags.walkTimeout with
    | error e => rw [hp] at hw; cases hw
    | ok d =>
      rw [hp] at hw
      cases hw
      simp at h
      exact ⟨_, h⟩
  · cases hw
    simp at h

/-- C6: for each of the three overrides (cache path, compiler binary
path, compiler support/WKT path), the runner built by `getRunner` uses
the explicit flag's value whenever the flag is non-empty, and the
corresponding environment variable's value only when the flag is
empty. -/
theorem getRunner_flag_overrides_env (develMode : Bool) (flags : Flags) (env : OsEnv)
    (r : Runner) (h : getRunner develMode flags env = .ok r) :
    r.cachePath =
      (if flags.cachePath ≠ "" then flags.cachePath else env.prototoolCachePath) ∧
    r.protocBinPath =
      (if flags.protocBinPath ≠ "" then flags.protocBinPath else env.prototoolProtocBinPath) ∧
    r.protocWKTPath =
      (if flags.protocWKTPath ≠ "" then flags.protocWKTPath else env.prototoolProtocWktPath) := by
  unfold getRunner at h
  cases hw : walkTimeoutOptions flags env with
  | error e => rw [hw] at h; cases h
  | ok wOpts =>
    rw [hw] at h
    cases hg : env.getwd with
    | error e => rw [hg] at h; cases h
    | ok wd =>
      rw [hg] at h
      cases h
      unfold newRunner
      simp only [List.foldl_append]
      refine ⟨?_, ?_, ?_⟩
      · rw [foldl_proj_preserved Runner.cachePath (develOptions develMode)
            (fun o ho r' => by obtain rfl := mem_develOptions ho; rfl),
          foldl_proj_preserved Runner.cachePath wOpts
            (fun o ho r' => by obtain ⟨d, rfl⟩ := mem_walkTimeoutOptions hw ho; rfl),
          foldl_proj_preserved Runner.cachePath (protocUrlOptions flags)
            (fun o ho r' => by obtain ⟨u, rfl⟩ := mem_protocUrlOptions ho; rfl),
          foldl_proj_preserved Runner.cachePath (errorFormatOptions flags)
            (fun o ho r' => by obtain ⟨f, rfl⟩ := mem_errorFormatOptions ho; rfl),
          foldl_proj_preserved Runner.cachePath (protocWktPathOptions flags env)
            (fun o ho r' => by obtain ⟨p, rfl⟩ := mem_protocWktPathOptions ho; rfl),
          foldl_proj_preserved Runner.cachePath (protocBinPathOptions flags env)
            (fun o ho r' => by obtain ⟨p, rfl⟩ := mem_protocBinPathOptions ho; rfl),
          foldl_proj_preserved Runner.cachePath (jsonOptions flags)
            (fun o ho r' => by obtain rfl := mem_jsonOptions ho; rfl),
          foldl_proj_preserved Runner.cachePath (configDataOptions flags)
            (fun o ho r' => by obtain ⟨d, rfl⟩ := mem_configDataOptions ho; rfl)]
        unfold cachePathOptions
        split_ifs with h1 h2 <;> simp_all [applyRunnerOption]
      · rw [foldl_proj_preserved Runner.protocBinPath (develOptions develMode)
            (fun o ho r' => by obtain rfl := mem_develOptions ho; rfl),
          foldl_proj_preserved Runner.protocBinPath wOpts
            (fun o ho r' => by obtain ⟨d, rfl⟩ := mem_walkTimeoutOptions hw ho; rfl),
          foldl_proj_preserved Runner.protocBinPath (protocUrlOptions flags)
            (fun o ho r' => by obtain ⟨u, rfl⟩ := mem_protocUrlOptions ho; rfl),
          foldl_proj_preserved Runner.protocBinPath (errorFormatOptions flags)
            (fun o ho r' => by obtain ⟨f, rfl⟩ := mem_errorFormatOptions ho; rfl),
          foldl_proj_preserved Runner.protocBinPath (protocWktPathOptions flags env)
            (fun o ho r' => by obtain ⟨p, rfl⟩ := mem_protocWktPathOptions ho; rfl)]
        unfold protocBinPathOptions
        split_ifs with h1 h2
        · rfl
        · rfl
        · simp only [List.foldl_nil]
          rw [foldl_proj_preserved Runner.protocBinPath (jsonOptions flags)
              (fun o ho r' => by obtain rfl := mem_jsonOptions ho; rfl),
            foldl_proj_preserved Runner.protocBinPath (configDataOptions flags)
              (fun o ho r' => by obtain ⟨d, rfl⟩ := mem_configDataOptions ho; rfl),
            foldl_proj_preserved Runner.protocBinPath (cachePathOptions flags env)
              (fun o ho r' => by obtain ⟨p, rfl⟩ := mem_cachePathOptions ho; rfl)]
          simp_all [applyRunnerOption]
      · rw [foldl_proj_preserved Runner.protocWKTPath (develOptions develMode)
            (fun o ho r' => by obtain rfl := mem_develOptions ho; rfl),
          foldl_proj_preserved Runner.protocWKTPath wOpts
            (fun o ho r' => by obtain ⟨d, rfl⟩ := mem_walkTimeoutOptions hw ho; rfl),
          foldl_proj_preserved Runner.protocWKTPath (protocUrlOptions flags)
            (fun o ho r' => by obtain ⟨u, rfl⟩ := mem_protocUrlOptions ho; rfl),
          foldl_proj_preserved Runner.protocWKTPath (errorFormatOptions flags)
            (fun o ho r' => by obtain ⟨f, rfl⟩ := mem_errorFormatOptions ho; rfl)]
        unfold protocWktPathOptions
        split_ifs with h1 h2
        · rfl
        · rfl
        · simp only [List.foldl_nil]
          rw [foldl_proj_preserved Runner.protocWKTPath (protocBinPathOptions flags env)
              (fun o ho r' => by obtain ⟨p, rfl⟩ := mem_protocBinPathOptions ho; rfl),
            foldl_proj_preserved Runner.protocWKTPath (jsonOptions flags)
              (fun o ho r' => by obtain rfl := mem_jsonOptions ho; rfl),
            foldl_proj_preserved Runner.protocWKTPath (configDataOptions flags)
              (fun o ho r' => by obtain ⟨d, rfl⟩ := mem_configDataOptions ho; rfl),
            foldl_proj_preserved Runner.protocWKTPath (cachePathOptions flags env)
              (fun o ho r' => by obtain ⟨p, rfl⟩ := mem_cachePathOptions ho; rfl)]
          simp_all [applyRunnerOption]

/-- Flags for the C6 witness: every override flag set while the
corresponding environment variable is also set. -/
def flagsSample : Flags :=
  { cachePath := "/flag/cache", protocBinPath := "/flag/bin", protocWKTPath := "/flag/wkt" }

/-- OS environment for the C6 witness: every override variable set. -/
def osEnvSample : OsEnv :=
  { prototoolCachePath := "/env/cache", prototoolProtocBinPath := "/env/bin",
    prototoolProtocWktPath := "/env/wkt", getwd := .ok "/w",
    parseDuration := fun s => if s == "3s" then .ok 3000000000 else .error (.message "bad") }

theorem getRunner_flag_overrides_env_witness :
    ({ workDirPath := "/w", cwd := "/w", cachePath := "/flag/cache",
       protocBinPath := "/flag/bin", protocWKTPath := "/flag/wkt",
       errorFormat := "filename:line:column:message",
       walkTimeout := 3000000000 } : Runner).cachePath =
      (if flagsSample.cachePath ≠ "" then flagsSample.cachePath
       else osEnvSample.prototoolCachePath) ∧
    ({ workDirPath := "/w", cwd := "/w", cachePath := "/flag/cache",
       protocBinPath := "/flag/bin", protocWKTPath := "/flag/wkt",
       errorFormat := "filename:line:column:message",
       walkTimeout := 3000000000 } : Runner).protocBinPath =
      (if flagsSample.protocBinPath ≠ "" then flagsSample.protocBinPath
       else osEnvSample.prototoolProtocBinPath) ∧
    ({ workDirPath := "/w", cwd := "/w", cachePath := "/flag/cache",
       protocBinPath := "/flag/bin", protocWKTPath := "/flag/wkt",
       errorFormat := "filename:line:column:message",
       walkTimeout := 3000000000 } : Runner).protocWKTPath =
      (if flagsSample.protocWKTPath ≠ "" then flagsSample.protocWKTPath
       else osEnvSample.prototoolProtocWktPath) :=
  getRunner_flag_overrides_env false flagsSample osEnvSample _ rfl

/-- C1 counterexample: with a regular-file target (single filename
`a.proto`) and one collected failure for a sibling file `b.proto`, the
compile operation prints nothing at all, yet reports overall failure —
so not all collected failures are printed before the failure is
reported, refuting the claim as stated. -/
theorem doCompile_single_file_hides_collected_failure :
    doCompile { workDirPath := "/w", cwd := "/w", errorFormat := "filename:line:column:message" }
        { protoSet := ⟨0⟩, singleFilename := "a.proto" }
        (.ok { failures := [⟨"b.proto", 1, 1, "", "m"⟩], fileDescriptorSets := ⟨0⟩ }) =
      ([], .error (.exitError 255 "")) ∧
    ([(⟨"b.proto", 1, 1, "", "m"⟩ : Failure)] : List Failure) ≠ [] :=
  ⟨rfl, by decide⟩

/-- C1 (amended): with a parseable error format, non-JSON output and a
directory target (no single-file filter), the compile operation prints
every collected failure, sorted, and then returns the compiled file
descriptor sets when the collected failure list is empty and an exit
error with code 255 exactly when it is non-empty; the collected
failures are never short-circuited after the first failure.  (When the
target is a regular file, the printed set is additionally filtered to
that file, as C3 states, while the exit code still reflects the whole
collected list.) -/
theorem doCompile_reports_iff_failures_and_prints_all (r : Runner) (m : Meta)
    (cr : CompileResult) (fields : List FailureField)
    (hfmt : parseColonSeparatedFailureFields r.errorFormat = .ok fields)
    (hjson : r.json = false) (hdir : m.singleFilename = "") :
    doCompile r m (.ok cr) =
      ((sortFailures cr.failures).map (renderFailureText fields),
        if cr.failures.isEmpty then .ok cr.fileDescriptorSets
        else .error (.exitError 255 "")) := by
  unfold doCompile printFailures printFailuresForErrorFormat
  have hfilter : ∀ f ∈ sortFailures cr.failures,
      shouldPrint r.cwd (some m) f = (fun _ : Failure => true) f := by
    intro f _
    unfold shouldPrint
    simp [hdir]
  simp only [ne_eq, not_true_eq_false, if_false, hfmt]
  rw [List.filter_congr hfilter, List.filter_true]
  simp only [hjson, Bool.false_eq_true, if_false]
  cases hf : cr.failures with
  | nil => simp
  | cons f fs => simp

theorem doCompile_reports_iff_failures_and_prints_all_witness :
    doCompile { workDirPath := "/w", cwd := "/w", errorFormat := "filename:line:column:message" }
        { protoSet := ⟨0⟩ }
        (.ok { failures := [⟨"b.proto", 1, 1, "", "m"⟩, ⟨"a.proto", 2, 2, "", "n"⟩],
               fileDescriptorSets := ⟨0⟩ }) =
      ((sortFailures [⟨"b.proto", 1, 1, "", "m"⟩, ⟨"a.proto", 2, 2, "", "n"⟩]).map
          (renderFailureText [.filename, .line, .column, .message]),
        if ([(⟨"b.proto", 1, 1, "", "m"⟩ : Failure), ⟨"a.proto", 2, 2, "", "n"⟩] :
            List Failure).isEmpty then
          .ok (⟨0⟩ : FileDescriptorSets)
        else .error (.exitError 255 "")) :=
  doCompile_reports_iff_failures_and_prints_all
    { workDirPath := "/w", cwd := "/w", errorFormat := "filename:line:column:message" }
    { protoSet := ⟨0⟩ }
    { failures := [⟨"b.proto", 1, 1, "", "m"⟩, ⟨"a.proto", 2, 2, "", "n"⟩],
      fileDescriptorSets := ⟨0⟩ }
    [.filename, .line, .column, .message] rfl rfl rfl

/-- C3: when the target path is a regular file, resolution operates
over the file's containing directory (the proto set is the one the
provider returns for that directory, so sibling imports are visible),
and the failures surfaced by the printer are exactly those whose
filename matches that one file, either literally or after
absolute-cleaning both the failure filename and the target path. -/
theorem file_target_containing_dir_and_filter (fs : Filesystem) (env : ResolveEnv)
    (r : Runner) (path : String) (ps : ProtoSet) (failures : List Failure)
    (fields : List FailureField)
    (hstat : fs.stat path = some .regular)
    (hres : env.getForDir r.workDirPath (goDir path) = .ok ps)
    (hpath : path ≠ "")
    (hfmt : parseColonSeparatedFailureFields r.errorFormat = .ok fields)
    (hjson : r.json = false) :
    getMeta fs env r [path] = .ok { protoSet := ps, singleFilename := path } ∧
    printFailures r "" (some { protoSet := ps, singleFilename := path }) failures =
      .ok (((sortFailures failures).filter
          (fun f => path == f.filename ||
            absClean r.cwd path == absClean r.cwd f.filename)).map
        (renderFailureText fields)) := by
  constructor
  · unfold getMeta
    simp [hstat, hres]
  · unfold printFailures printFailuresForErrorFormat
    have hfilter : ∀ f ∈ sortFailures failures,
        shouldPrint r.cwd (some { protoSet := ps, singleFilename := path }) f =
          (fun f : Failure => path == f.filename ||
            absClean r.cwd path == absClean r.cwd f.filename) f := by
      intro f _
      unfold shouldPrint
      simp only
      split_ifs with h1 h2
      · exact absurd h1 hpath
      · simp [h2]
      · simp [h2]
    simp only [ne_eq, not_true_eq_false, if_false, hfmt]
    rw [List.filter_congr hfilter]
    simp only [hjson, Bool.false_eq_true, if_false]

/-- Filesystem for the C3 witness. -/
def fsSample : Filesystem :=
  ⟨fun p => if p == "d/a.proto" then some .regular else none⟩

/-- Resolution environment for the C3 witness: resolution succeeds
only for the containing directory `d`. -/
def resolveEnvSample : ResolveEnv :=
  ⟨fun w dir => if w == "/w" && dir == "d" then .ok ⟨1⟩ else .error (.message "nope")⟩

/-- Runner for the C3 witness. -/
def runnerSample : Runner :=
  { workDirPath := "/w", cwd := "/w", errorFormat := "filename:line:column:message" }

/-- Failures for the C3 witness: one for the target file, one for a
sibling. -/
def failuresSample : List Failure :=
  [⟨"d/b.proto", 1, 1, "", "x"⟩, ⟨"d/a.proto", 2, 3, "", "y"⟩]

theorem file_target_containing_dir_and_filter_witness :
    getMeta fsSample resolveEnvSample runnerSample ["d/a.proto"] =
      .ok { protoSet := ⟨1⟩, singleFilename := "d/a.proto" } ∧
    printFailures runnerSample ""
        (some { protoSet := ⟨1⟩, singleFilename := "d/a.proto" }) failuresSample =
      .ok (((sortFailures failuresSample).filter
          (fun f => "d/a.proto" == f.filename ||
            absClean runnerSample.cwd "d/a.proto" == absClean runnerSample.cwd f.filename)).map
        (renderFailureText [.filename, .line, .column, .message])) :=
  file_target_containing_dir_and_filter fsSample resolveEnvSample runnerSample
    "d/a.proto" ⟨1⟩ failuresSample [.filename, .line, .column, .message]
    rfl rfl (by decide) rfl rfl

theorem failureLe_refl (a : Failure) : failureLe a a := by
  rcases failureLeB_total a a with h | h <;> exact h

theorem sortFailures_key_distinct_eq :
    ∀ {A B : List Failure}, List.Perm A B → List.Sorted failureLe A →
      List.Sorted failureLe B → A.Pairwise (fun x y => x.sortKey ≠ y.sortKey) → A = B := by
  intro A
  induction A with
  | nil =>
    intro B hp _ _ _
    exact hp.nil_eq
  | cons a A ih =>
    intro B hp hsA hsB hpw
    cases B with
    | nil => exact absurd hp.eq_nil (by simp)
    | cons b B' =>
      have hbmem : b ∈ a :: A := hp.mem_iff.mpr (List.mem_cons_self b B')
      have hamem : a ∈ b :: B' := hp.mem_iff.mp (List.mem_cons_self a A)
      have hba : b = a := by
        rcases List.mem_cons.mp hbmem with hba | hbA
        · exact hba
        · have hab_le : failureLe a b := (List.sorted_cons.mp hsA).1 b hbA
          have hba_le : failureLe b a := by
            rcases List.mem_cons.mp hamem with hab | haB
            · rw [hab]
              exact failureLe_refl b
            · exact (List.sorted_cons.mp hsB).1 a haB
          have hkey : a.sortKey = b.sortKey := failureLe_antisymm_key a b hab_le hba_le
          exact absurd hkey ((List.pairwise_cons.mp hpw).1 b hbA)
      subst hba
      have htail : A = B' := ih hp.cons_inv (List.sorted_cons.mp hsA).2
        (List.sorted_cons.mp hsB).2 (List.pairwise_cons.mp hpw).2
      rw [htail]

/-- C2 counterexample: two failures that agree on (filename, line,
column, message) but differ in the identifier field are kept in input
order by the stable sort, so two permutations of the same failure list
produce different printed output under the id-bearing error format —
refuting "one identical order for every permutation" as stated. -/
theorem printFailures_order_depends_on_id_ties :
    List.Perm [(⟨"a", 1, 1, "x", "m"⟩ : Failure), ⟨"a", 1, 1, "y", "m"⟩]
      [⟨"a", 1, 1, "y", "m"⟩, ⟨"a", 1, 1, "x", "m"⟩] ∧
    printFailuresForErrorFormat { workDirPath := "/w", cwd := "/w" }
        "filename:line:column:id:message" "" none
        [⟨"a", 1, 1, "x", "m"⟩, ⟨"a", 1, 1, "y", "m"⟩] ≠
      printFailuresForErrorFormat { workDirPath := "/w", cwd := "/w" }
        "filename:line:column:id:message" "" none
        [⟨"a", 1, 1, "y", "m"⟩, ⟨"a", 1, 1, "x", "m"⟩] := by
  constructor
  · exact List.Perm.swap _ _ _
  · decide

/-- C2 (amended): for every failure list whose elements are pairwise
distinguished by the (filename, line, column, message) sort key, every
permutation of the list is sorted to the identical order; the sorted
output is ordered by (filename, line, column, message) and is a
permutation of the input.  (When two failures share the sort key and
differ only in the identifier, the stable sort preserves their input
order, so only the key sequence — not the full record order — is
permutation-invariant.) -/
theorem sortFailures_deterministic_on_distinct_keys (l l' : List Failure)
    (hp : List.Perm l l')
    (hnd : l.Pairwise (fun a b => a.sortKey ≠ b.sortKey)) :
    sortFailures l' = sortFailures l ∧
    List.Sorted failureLe (sortFailures l) ∧
    List.Perm (sortFailures l) l := by
  have hsl : List.Sorted failureLe (sortFailures l) := List.sorted_insertionSort failureLe l
  have hsl' : List.Sorted failureLe (sortFailures l') := List.sorted_insertionSort failureLe l'
  have hpl : List.Perm (sortFailures l) l := List.perm_insertionSort failureLe l
  have hpl' : List.Perm (sortFailures l') l' := List.perm_insertionSort failureLe l'
  refine ⟨?_, hsl, hpl⟩
  have hperm : List.Perm (sortFailures l') (sortFailures l) :=
    hpl'.trans (hp.symm.trans hpl.symm)
  have hnd' : (sortFailures l').Pairwise (fun a b => a.sortKey ≠ b.sortKey) :=
    (List.Perm.pairwise_iff (by intro x y hxy; exact Ne.symm hxy)
      (hp.trans hpl'.symm)).mp hnd
  exact sortFailures_key_distinct_eq hperm hsl' hsl hnd'

theorem sortFailures_deterministic_on_distinct_keys_witness :
    sortFailures [(⟨"a", 2, 2, "", "n"⟩ : Failure), ⟨"b", 1, 1, "", "m"⟩] =
      sortFailures [(⟨"b", 1, 1, "", "m"⟩ : Failure), ⟨"a", 2, 2, "", "n"⟩] ∧
    List.Sorted failureLe
      (sortFailures [(⟨"b", 1, 1, "", "m"⟩ : Failure), ⟨"a", 2, 2, "", "n"⟩]) ∧
    List.Perm (sortFailures [(⟨"b", 1, 1, "", "m"⟩ : Failure), ⟨"a", 2, 2, "", "n"⟩])
      [⟨"b", 1, 1, "", "m"⟩, ⟨"a", 2, 2, "", "n"⟩] :=
  sortFailures_deterministic_on_distinct_keys
    [⟨"b", 1, 1, "", "m"⟩, ⟨"a", 2, 2, "", "n"⟩]
    [⟨"a", 2, 2, "", "n"⟩, ⟨"b", 1, 1, "", "m"⟩]
    (List.Perm.swap _ _ _) (by decide)

/-- C4: in git-reference mode, the breaking-change check rejects an
absolute target argument, and rejects a target whose absolute cleaned
path does not lie inside (have as a prefix) the absolute cleaned
working directory; in both cases an error is returned with a trace
showing no clone was attempted. -/
theorem breakCheck_rejects_absolute_or_outside_target (env : BreakEnv) (r : Runner)
    (args : List String) (gitBranch : String) (pc : PackageSet × Config)
    (htp : env.toPkg = .ok pc) :
    (goIsAbs (breakCheckRelDir args) = true →
      breakCheck env r args gitBranch "" =
        (.error (.message ("input argument must be relative directory path: " ++
          breakCheckRelDir args)), [], {})) ∧
    (goIsAbs (breakCheckRelDir args) = false →
      strHasPre (absClean r.cwd (breakCheckRelDir args)) (absClean r.cwd r.workDirPath) =
        false →
      breakCheck env r args gitBranch "" =
        (.error (.message ("input directory must be within working directory: " ++
          breakCheckRelDir args)), [], {})) := by
  obtain ⟨tps, cfg⟩ := pc
  constructor
  · intro habs
    unfold breakCheck
    rw [if_neg (by simp)]
    rw [htp]
    simp [habs]
  · intro habs hpre
    unfold breakCheck
    rw [if_neg (by simp)]
    rw [htp]
    simp [habs, hpre]

/-- A break-check environment in which every collaborator call
succeeds, for the C4 and C8 witnesses. -/
def breakEnvSample : BreakEnv :=
  { toPkg := .ok (⟨1⟩, ⟨2⟩), fromPkgDesc := fun _ => .ok ⟨3⟩, clone := .ok "/tmp/clone",
    fromPkgClone := fun _ => .ok (⟨4⟩, ⟨5⟩), breakingRun := fun _ _ _ => .ok [] }

theorem breakCheck_rejects_absolute_or_outside_target_witness :
    breakCheck breakEnvSample { workDirPath := "/w", cwd := "/w" } ["/abs"] "dev" "" =
      (.error (.message "input argument must be relative directory path: /abs"), [], {}) ∧
    breakCheck breakEnvSample { workDirPath := "/w", cwd := "/w" } ["../out"] "dev" "" =
      (.error (.message "input directory must be within working directory: ../out"), [], {}) :=
  ⟨(breakCheck_rejects_absolute_or_outside_target breakEnvSample
      { workDirPath := "/w", cwd := "/w" } ["/abs"] "dev" (⟨1⟩, ⟨2⟩) rfl).1 rfl,
   (breakCheck_rejects_absolute_or_outside_target breakEnvSample
      { workDirPath := "/w", cwd := "/w" } ["../out"] "dev" (⟨1⟩, ⟨2⟩) rfl).2 rfl rfl⟩

theorem breakCheck_trace_cases (env : BreakEnv) (r : Runner) (args : List String)
    (gitBranch descriptorSetPath : String) :
    (breakCheck env r args gitBranch descriptorSetPath).2.2 = {} ∨
    (breakCheck env r args gitBranch descriptorSetPath).2.2 = { cloneAttempted := true } ∨
    (breakCheck env r args gitBranch descriptorSetPath).2.2 =
      { cloneAttempted := true, cloneCreated := true, cloneRemoved := true } := by
  unfold breakCheck
  by_cases hg : gitBranch ≠ "" ∧ descriptorSetPath ≠ ""
  · left
    simp [hg]
  · rw [if_neg hg]
    cases htp : env.toPkg with
    | error e => exact Or.inl rfl
    | ok pc =>
      obtain ⟨tps, cfg⟩ := pc
      by_cases hd : descriptorSetPath ≠ ""
      · cases hfd : env.fromPkgDesc descriptorSetPath with
        | error e =>
          left
          simp [hd, hfd]
        | ok fps =>
          rcases hbf : breakCheckFinish env r cfg fps tps with ⟨res, lines⟩
          left
          simp [hd, hfd, hbf]
      · by_cases habs : goIsAbs (breakCheckRelDir args) = true
        · left
          simp [hd, habs]
        · by_cases hpre : strHasPre (absClean r.cwd (breakCheckRelDir args))
              (absClean r.cwd r.workDirPath) = true
          · cases hcl : env.clone with
            | error e =>
              right; left
              simp [hd, habs, hpre, hcl]
            | ok dir =>
              cases hfc : env.fromPkgClone dir with
              | error e =>
                right; right
                simp [hd, habs, hpre, hcl, hfc, deferRemove]
              | ok pc2 =>
                obtain ⟨fps, cfg2⟩ := pc2
                right; right
                simp [hd, habs, hpre, hcl, hfc, deferRemove]
          · left
            simp [hd, habs, hpre]

/-- C8: in git-reference mode, once the temporary clone directory has
been created (the trace records a created clone), it is removed on
every exit path of the breaking-change check, including failures of
the clone-side resolution/compilation and of the breaking runner. -/
theorem breakCheck_clone_removed_on_all_paths (env : BreakEnv) (r : Runner)
    (args : List String) (gitBranch descriptorSetPath : String)
    (h : (breakCheck env r args gitBranch descriptorSetPath).2.2.cloneCreated = true) :
    (breakCheck env r args gitBranch descriptorSetPath).2.2.cloneRemoved = true := by
  rcases breakCheck_trace_cases env r args gitBranch descriptorSetPath with h1 | h1 | h1 <;>
    rw [h1] at h ⊢ <;> simp at h

theorem breakCheck_clone_removed_on_all_paths_witness :
    (breakCheck breakEnvSample { workDirPath := "/w", cwd := "/w" } [] "branch" "").2.2.cloneRemoved =
      true :=
  breakCheck_clone_removed_on_all_paths breakEnvSample
    { workDirPath := "/w", cwd := "/w" } [] "branch" "" rfl

theorem renderFailureText_message (f : Failure) :
    renderFailureText [.message] f = f.message :=
  rfl

/-- C10 counterexample: with JSON output configured, a finding of the
breaking-change check is printed as a JSON object, not as its bare
message — refuting "prints each finding rendered with only its message
field" as stated for every runner configuration. -/
theorem breakCheck_json_not_message_only :
    breakCheck
        { toPkg := .ok (⟨1⟩, ⟨2⟩), fromPkgDesc := fun _ => .ok ⟨3⟩,
          clone := .error (.message "no"), fromPkgClone := fun _ => .error (.message "no"),
          breakingRun := fun _ _ _ => .ok [⟨"f", 1, 2, "", "m"⟩] }
        { workDirPath := "/w", cwd := "/w", json := true } [] "" "d.bin" =
      (.error (.exitError 255 ""),
        ["\x7b\"filename\":\"f\",\"line\":1,\"column\":2,\"message\":\"m\"\x7d"], {}) ∧
    ("\x7b\"filename\":\"f\",\"line\":1,\"column\":2,\"message\":\"m\"\x7d" : String) ≠ "m" :=
  ⟨rfl, by decide⟩

/-- C10 (amended): when JSON output is not configured, the
breaking-change check prints each finding rendered with only its
message field — whatever error format the caller configured — and
exits with code 255; with zero findings it succeeds and prints
nothing.  (With JSON output configured, each finding is printed as a
JSON object instead, still ignoring the configured error format.) -/
theorem breakCheck_findings_message_only (env : BreakEnv) (r : Runner) (args : List String)
    (descriptorSetPath : String) (tps fps : PackageSet) (cfg : Config)
    (failures : List Failure)
    (hdp : descriptorSetPath ≠ "")
    (htp : env.toPkg = .ok (tps, cfg))
    (hfd : env.fromPkgDesc descriptorSetPath = .ok fps)
    (hbr : env.breakingRun cfg fps tps = .ok failures)
    (hjson : r.json = false) :
    breakCheck env r args "" descriptorSetPath =
      (if failures.isEmpty then (.ok (), [], ({} : BreakTrace))
       else (.error (.exitError 255 ""), (sortFailures failures).map Failure.message,
         ({} : BreakTrace))) := by
  unfold breakCheck breakCheckFinish printFailuresForErrorFormat
  rw [if_neg (by simp)]
  have hparse : parseColonSeparatedFailureFields "message" = .ok [.message] := rfl
  have hrender : ∀ f : Failure,
      (if r.json then renderFailureJSON f else renderFailureText [.message] f) =
        Failure.message f := by
    intro f
    rw [hjson]
    simp only [Bool.false_eq_true, if_false]
    exact renderFailureText_message f
  simp only [htp, hdp, hfd, hbr, hparse, ne_eq, not_false_eq_true, if_true, ite_true,
    not_true_eq_false, if_false, ite_false, shouldPrint, List.filter_true, hrender]
  cases failures with
  | nil => rfl
  | cons f fs =>
    have hfil : ∀ x ∈ sortFailures (f :: fs),
        shouldPrint r.cwd none x = (fun _ : Failure => true) x :=
      fun x _ => rfl
    rw [List.filter_congr hfil, List.filter_true]
    simp

theorem breakCheck_findings_message_only_witness :
    breakCheck
        { toPkg := .ok (⟨1⟩, ⟨2⟩), fromPkgDesc := fun _ => .ok ⟨3⟩,
          clone := .error (.message "no"), fromPkgClone := fun _ => .error (.message "no"),
          breakingRun := fun _ _ _ => .ok [⟨"f", 1, 2, "", "m"⟩] }
        { workDirPath := "/w", cwd := "/w" } [] "" "d.bin" =
      (if ([(⟨"f", 1, 2, "", "m"⟩ : Failure)] : List Failure).isEmpty then
        (.ok (), [], ({} : BreakTrace))
       else (.error (.exitError 255 ""),
         (sortFailures [⟨"f", 1, 2, "", "m"⟩]).map Failure.message, ({} : BreakTrace))) :=
  breakCheck_findings_message_only
    { toPkg := .ok (⟨1⟩, ⟨2⟩), fromPkgDesc := fun _ => .ok ⟨3⟩,
      clone := .error (.message "no"), fromPkgClone := fun _ => .error (.message "no"),
      breakingRun := fun _ _ _ => .ok [⟨"f", 1, 2, "", "m"⟩] }
    { workDirPath := "/w", cwd := "/w" } [] "d.bin" ⟨1⟩ ⟨3⟩ ⟨2⟩
    [⟨"f", 1, 2, "", "m"⟩] (by decide) rfl rfl rfl rfl

end Prototool
